import Mathlib

/-!
# Verification of the AvicBotChat supervisor (`avicbot.py`)

Shallow embedding of `avicbot.py` into Lean 4.

* Strings are modelled as `List Char` so the per-character parsing of
  `_load_dotenv` is structural.  The file content passed to the loader is
  modelled as the list of physical lines (the result of Python's
  `read_text().splitlines()`).
* `os.environ` is modelled as an association list looked up front-to-back;
  `os.environ.setdefault` appends a binding only when the key is absent.
* The supervisor `main` is modelled as a function of the parsed flags and a
  `World` supplying the facts the OS would: whether each bot script exists,
  each child's exit code, whether (and during which blocking `wait` call) a
  `KeyboardInterrupt` arrives, whether the platform is Windows (`os.name ==
  "nt"`), and, per child, the outcomes of the fallible termination-time OS
  calls (`poll`, `killpg`/`terminate`, `wait(timeout=5)`, kill).  Every
  `try/except` of the source is an explicit branch on those outcomes, so a
  swallowed failure is a branch that still returns a value.
-/

set_option autoImplicit false

namespace AvicBot

/-- A Python string, modelled as its list of characters. -/
abbrev Str := List Char

/-- The process environment (`os.environ`): an association list, first
binding for a key wins on lookup. -/
abbrev Env := List (Str × Str)

/-- The whitespace characters stripped by Python's `str.strip()`
(ASCII subset: space, tab, newline, carriage return, vertical tab, form feed). -/
def isPySpace (c : Char) : Bool :=
  c = ' ' || c = '\t' || c = '\n' || c = '\r' || c = '\x0b' || c = '\x0c'

/-- `str.lstrip()`. -/
def stripLeft (s : Str) : Str := s.dropWhile isPySpace

/-- `str.rstrip()`. -/
def stripRight (s : Str) : Str := (s.reverse.dropWhile isPySpace).reverse

/-- `str.strip()`. -/
def strip (s : Str) : Str := stripRight (stripLeft s)

/-- `line.split("=", 1)` when `"=" in line`: split on the FIRST `=` into
key and value; `none` when the line has no `=`. -/
def splitFirstEq : Str → Option (Str × Str)
  | [] => none
  | c :: rest =>
    if c = '=' then some ([], rest)
    else
      match splitFirstEq rest with
      | none => none
      | some (k, v) => some (c :: k, v)

/-- The quote-stripping step of `_load_dotenv`:
`if (len(val) >= 2) and (val[0] == val[-1]) and val[0] in ('"', "'"): val = val[1:-1]`. -/
def stripQuotes (v : Str) : Str :=
  if 2 ≤ v.length ∧ v.head? = v.getLast? ∧ (v.head? = some '"' ∨ v.head? = some '\'') then
    (v.drop 1).dropLast
  else v

/-- One iteration of the `_load_dotenv` line loop: `some (key, value)` when
the line sets a variable, `none` when the line is skipped (blank after
stripping, full-line comment, no `=`, or empty key after stripping). -/
def parseLine (raw : Str) : Option (Str × Str) :=
  let line := strip raw
  if line.isEmpty then none
  else if line.head? = some '#' then none
  else
    match splitFirstEq line with
    | none => none
    | some (k, v) =>
      let key := strip k
      if key.isEmpty then none
      else some (key, stripQuotes (strip v))

/-- Lookup in the modelled `os.environ`. -/
def envLookup : Env → Str → Option Str
  | [], _ => none
  | (k, v) :: rest, key => if k = key then some v else envLookup rest key

/-- `os.environ.setdefault(key, val)`: set only if the key is not already
defined; leave a pre-existing binding untouched. -/
def setdefault (env : Env) (key v : Str) : Env :=
  match envLookup env key with
  | some _ => env
  | none => env ++ [(key, v)]

/-- The `_load_dotenv` line loop over the file's physical lines. -/
def loadEnvLines (env : Env) : List Str → Env
  | [] => env
  | raw :: rest =>
    match parseLine raw with
    | none => loadEnvLines env rest
    | some (k, v) => loadEnvLines (setdefault env k v) rest

/-- `_load_dotenv`: if the path does not exist or is not a regular file,
return the environment unchanged; otherwise run the line loop on the file's
lines. -/
def loadDotenv (fileIsReadableFile : Bool) (lines : List Str) (env : Env) : Env :=
  if fileIsReadableFile then loadEnvLines env lines else env

/-! ## Supervisor model (`main`, `_spawn`, `_terminate`) -/

/-- The two bot children. `twitch` runs `twitch.py`, `wikimedia` runs
`avicbotirc.py`. -/
inductive Child
  | twitch
  | wikimedia
  deriving DecidableEq, Repr

/-- The parsed argparse flags (`store_true` destinations `twitch` and
`wikimedia`). -/
structure Args where
  twitch : Bool
  wikimedia : Bool
  deriving DecidableEq, Repr

/-- The argparse surface for the two child flags: each flag is accepted in
two case variants and sets its boolean destination regardless of position;
an unrecognised token is a parse error (`none`). -/
def parseFlags : List String → Option Args
  | [] => some { twitch := false, wikimedia := false }
  | a :: rest =>
    match parseFlags rest with
    | none => none
    | some args =>
      if a = "--Twitch" || a = "--twitch" then some { args with twitch := true }
      else if a = "--Wikimedia" || a = "--wikimedia" then some { args with wikimedia := true }
      else none

/-- The children named on the command line, in the order their flags appear
there.  This definition follows the SPEC's words ("the order the children
were requested on the command line"), to be compared with the wait order the
source produces. -/
def requestOrderSpec (argv : List String) : List Child :=
  argv.filterMap fun a =>
    if a = "--Twitch" || a = "--twitch" then some Child.twitch
    else if a = "--Wikimedia" || a = "--wikimedia" then some Child.wikimedia
    else none

/-- The outcomes of the fallible OS interactions for one child during
shutdown, supplied as an oracle so every combination (including every
failure) is quantified over. -/
structure ChildOracle where
  /-- `proc.poll() is not None` at `_terminate` time: the child already exited. -/
  pollExited : Bool
  /-- The primary termination attempt (`os.killpg(..., SIGTERM)` on POSIX,
  `proc.terminate()` on Windows) raises. -/
  sigTermFails : Bool
  /-- The fallback `proc.terminate()` in `_terminate`'s `except` also raises
  (swallowed by the inner `except: pass`). -/
  fallbackTermFails : Bool
  /-- `p.wait(timeout=5)` returns within the grace period (`false` means it
  raises, e.g. `TimeoutExpired`). -/
  waitGraceOk : Bool
  /-- The forced kill (`os.killpg(..., SIGKILL)` / `p.kill()`) raises
  (swallowed by the inner `except: pass`). -/
  killFails : Bool
  deriving DecidableEq, Repr

/-- The OS calls `_terminate` and the drain loop can attempt. -/
inductive OsCall
  | killpgTerm
  | procTerminate
  | killpgKill
  | procKill
  deriving DecidableEq, Repr

/-- `_terminate(proc)`: best-effort termination.  Returns the OS calls
attempted, in order; every exception is caught, so the function is total for
every oracle. -/
def terminateProc (nt : Bool) (o : ChildOracle) : List OsCall :=
  if o.pollExited then []
  else if nt then
    if o.sigTermFails then [OsCall.procTerminate, OsCall.procTerminate]
    else [OsCall.procTerminate]
  else
    if o.sigTermFails then [OsCall.killpgTerm, OsCall.procTerminate]
    else [OsCall.killpgTerm]

/-- The grace period of the drain loop's `p.wait(timeout=5)`, in seconds. -/
def gracePeriodSeconds : Nat := 5

/-- Trace of one child's grace-wait step in `main`'s `except
KeyboardInterrupt` block. -/
structure DrainWaitResult where
  child : Child
  /-- `p.wait(timeout=5)` returned without raising. -/
  gracefulOk : Bool
  /-- The forced-kill call attempted when the grace wait raised (`none` when
  the wait succeeded). -/
  killCall : Option OsCall
  deriving DecidableEq, Repr

/-- One iteration of the drain loop's second `for`: try `p.wait(timeout=5)`;
on any exception, try the forced kill (process group on POSIX, `p.kill()` on
Windows) and swallow any failure of it. -/
def drainChildWait (nt : Bool) (o : ChildOracle) (c : Child) : DrainWaitResult :=
  if o.waitGraceOk then { child := c, gracefulOk := true, killCall := none }
  else
    { child := c, gracefulOk := false
      killCall := some (if nt then OsCall.procKill else OsCall.killpgKill) }

/-- Everything the OS supplies to one run of `main`. -/
structure World where
  /-- `(ROOT / "twitch.py").exists()`. -/
  twitchExists : Bool
  /-- `(ROOT / "avicbotirc.py").exists()`. -/
  ircExists : Bool
  /-- The exit code `p.wait()` returns for each child on the normal path. -/
  exitCode : Child → Int
  /-- `some i`: a `KeyboardInterrupt` is delivered during the `i`-th blocking
  `p.wait()` of the normal wait loop (0-based), before that wait returns. -/
  interruptAt : Option Nat
  /-- `os.name == "nt"`. -/
  nt : Bool
  /-- Shutdown-time OS outcomes per child. -/
  oracle : Child → ChildOracle

/-- Whether a child's script file exists in this world (`_spawn`'s
`script_path.exists()` check). -/
def scriptExists (w : World) : Child → Bool
  | Child.twitch => w.twitchExists
  | Child.wikimedia => w.ircExists

/-- The children `main` spawns, in the source's fixed order: `twitch.py`
first when `args.twitch`, then `avicbotirc.py` when `args.wikimedia`. -/
def requestedChildren (args : Args) : List Child :=
  (if args.twitch then [Child.twitch] else [])
    ++ (if args.wikimedia then [Child.wikimedia] else [])

/-- The spawn loop: `_spawn` each requested child in order; the first child
whose script is missing raises `FileNotFoundError`, stopping the loop.
Returns the children spawned so far and the missing child, if any. -/
def spawnPhase (w : World) : List Child → List Child × Option Child
  | [] => ([], none)
  | c :: rest =>
    if scriptExists w c then
      let (s, err) := spawnPhase w rest
      (c :: s, err)
    else ([], some c)

/-- The normal wait loop of `main`: `for p in procs: rc = p.wait(); if rc !=
0 and exit_code == 0: exit_code = rc`, starting from index `i` with
accumulator `acc`.  Returns the children waited to completion, the final
accumulator, and whether a `KeyboardInterrupt` broke the loop. -/
def waitPhase (w : World) : Nat → Int → List Child → List Child × Int × Bool
  | _, acc, [] => ([], acc, false)
  | i, acc, c :: rest =>
    if w.interruptAt = some i then ([], acc, true)
    else
      let rc := w.exitCode c
      let acc2 := if rc ≠ 0 ∧ acc = 0 then rc else acc
      let (ws, a, intr) := waitPhase w (i + 1) acc2 rest
      (c :: ws, a, intr)

/-- How a run of `main` ends: a returned exit code, or an uncaught
`FileNotFoundError` from `_spawn` (not caught by `except KeyboardInterrupt`). -/
inductive Outcome
  | exited (code : Int)
  | raisedNotFound (c : Child)
  deriving DecidableEq, Repr

/-- The observable trace of one run of `main`. -/
structure RunResult where
  outcome : Outcome
  /-- `print_help(sys.stderr)` was executed. -/
  printedHelpToStderr : Bool
  /-- Children spawned, in spawn order. -/
  spawned : List Child
  /-- Children whose normal-path `p.wait()` returned. -/
  waitedNormally : List Child
  /-- `_terminate` invocations of the drain path, in order, with the OS calls
  each attempted. -/
  drainTerm : List (Child × List OsCall)
  /-- Grace-wait/force-kill steps of the drain path, in order. -/
  drainWait : List DrainWaitResult
  deriving DecidableEq, Repr

/-- `main(argv)` after flag parsing (the `.env` load that precedes the flag
check mutates only the environment and is modelled by `loadDotenv`). -/
def mainRun (w : World) (args : Args) : RunResult :=
  if args.twitch = false ∧ args.wikimedia = false then
    { outcome := Outcome.exited 2, printedHelpToStderr := true, spawned := []
      waitedNormally := [], drainTerm := [], drainWait := [] }
  else
    match spawnPhase w (requestedChildren args) with
    | (spawned, some c) =>
      { outcome := Outcome.raisedNotFound c, printedHelpToStderr := false
        spawned := spawned, waitedNormally := [], drainTerm := [], drainWait := [] }
    | (spawned, none) =>
      match waitPhase w 0 0 spawned with
      | (waited, _, true) =>
        { outcome := Outcome.exited 130, printedHelpToStderr := false
          spawned := spawned, waitedNormally := waited
          drainTerm := spawned.map fun c => (c, terminateProc w.nt (w.oracle c))
          drainWait := spawned.map fun c => drainChildWait w.nt (w.oracle c) c }
      | (waited, agg, false) =>
        { outcome := Outcome.exited agg, printedHelpToStderr := false
          spawned := spawned, waitedNormally := waited
          drainTerm := [], drainWait := [] }

/-- The aggregate exit code as the SPEC's words describe it: `0` when no
child exits non-zero, otherwise the first non-zero exit code in wait order. -/
def firstNonzeroSpec (l : List Int) : Int := (l.find? fun rc => rc != 0).getD 0

/-- The value a key receives per the SPEC's words for duplicate keys: the
parsed value of the earliest valid line defining that key. -/
def firstDefSpec (lines : List Str) (key : Str) : Option Str :=
  lines.findSome? fun raw =>
    match parseLine raw with
    | some (k, v) => if k = key then some v else none
    | none => none

/-- The exit-code accumulator of `main`'s wait loop in isolation:
`if rc != 0 and exit_code == 0: exit_code = rc` folded over the observed
codes.  Used to relate `waitPhase` to `firstNonzeroSpec`. -/
def aggLoop : Int → List Int → Int
  | acc, [] => acc
  | acc, rc :: rest => aggLoop (if rc ≠ 0 ∧ acc = 0 then rc else acc) rest

/-- A shutdown oracle where nothing has exited and nothing fails. -/
def sampleOracle : ChildOracle :=
  { pollExited := false, sigTermFails := false, fallbackTermFails := false
    waitGraceOk := true, killFails := false }

/-- A concrete world for witnesses: both scripts exist, `twitch.py` exits 0,
`avicbotirc.py` exits 5, POSIX, no interrupt. -/
def sampleWorld : World :=
  { twitchExists := true, ircExists := true
    exitCode := fun c => match c with | Child.twitch => 0 | Child.wikimedia => 5
    interruptAt := none, nt := false, oracle := fun _ => sampleOracle }

/-- `sampleWorld` with a `KeyboardInterrupt` during the first blocking wait. -/
def intrWorld : World := { sampleWorld with interruptAt := some 0 }

/-! ## Environment lemmas -/

theorem envLookup_append_of_some {env tail : Env} {k v : Str}
    (h : envLookup env k = some v) : envLookup (env ++ tail) k = some v := by
  induction env with
  | nil => simp [envLookup] at h
  | cons p rest ih =>
    obtain ⟨k0, v0⟩ := p
    simp only [envLookup, List.cons_append] at h ⊢
    by_cases hk : k0 = k
    · rwa [if_pos hk] at h ⊢
    · rw [if_neg hk] at h ⊢
      exact ih h

theorem envLookup_append_of_none {env tail : Env} {k : Str}
    (h : envLookup env k = none) : envLookup (env ++ tail) k = envLookup tail k := by
  induction env with
  | nil => simp
  | cons p rest ih =>
    obtain ⟨k0, v0⟩ := p
    simp only [envLookup, List.cons_append] at h ⊢
    by_cases hk : k0 = k
    · rw [if_pos hk] at h; cases h
    · rw [if_neg hk] at h ⊢
      exact ih h

theorem envLookup_setdefault_of_some {env : Env} {k v k2 v2 : Str}
    (h : envLookup env k = some v) : envLookup (setdefault env k2 v2) k = some v := by
  unfold setdefault
  cases envLookup env k2 with
  | some _ => exact h
  | none => exact envLookup_append_of_some h

theorem envLookup_setdefault_other {env : Env} {k k2 v2 : Str} (hne : k2 ≠ k) :
    envLookup (setdefault env k2 v2) k = envLookup env k := by
  unfold setdefault
  cases envLookup env k2 with
  | some _ => rfl
  | none =>
    cases h : envLookup env k with
    | some v => exact envLookup_append_of_some h
    | none => rw [envLookup_append_of_none h]; simp [envLookup, hne]

theorem envLookup_setdefault_self {env : Env} {k v : Str}
    (h : envLookup env k = none) : envLookup (setdefault env k v) k = some v := by
  unfold setdefault
  rw [h, envLookup_append_of_none h]
  simp [envLookup]

theorem loadEnvLines_preserves {lines : List Str} {env : Env} {k v : Str}
    (h : envLookup env k = some v) : envLookup (loadEnvLines env lines) k = some v := by
  induction lines generalizing env with
  | nil => exact h
  | cons raw rest ih =>
    rcases hp : parseLine raw with _ | ⟨k2, v2⟩
    · simp only [loadEnvLines, hp]
      exact ih h
    · simp only [loadEnvLines, hp]
      exact ih (envLookup_setdefault_of_some h)

theorem loadEnvLines_firstDef {lines : List Str} {env : Env} {k : Str}
    (h : envLookup env k = none) :
    envLookup (loadEnvLines env lines) k = firstDefSpec lines k := by
  induction lines generalizing env with
  | nil => simpa [loadEnvLines, firstDefSpec, List.findSome?] using h
  | cons raw rest ih =>
    rcases hp : parseLine raw with _ | ⟨k2, v2⟩
    · simp only [loadEnvLines, hp, firstDefSpec, List.findSome?_cons]
      exact ih h
    · by_cases hk : k2 = k
      · subst hk
        simp only [loadEnvLines, hp, firstDefSpec, List.findSome?_cons, if_pos rfl]
        exact loadEnvLines_preserves (envLookup_setdefault_self h)
      · simp only [loadEnvLines, hp, firstDefSpec, List.findSome?_cons, if_neg hk]
        exact ih ((envLookup_setdefault_other hk).trans h)

/-! ## Dotenv claims -/

/-- Claim C1: for every configuration-file content and every starting
environment, a key already present in the environment before `_load_dotenv`
runs keeps its value: the loader only `setdefault`s and never overwrites a
pre-existing binding. -/
theorem c1_loader_never_overwrites (b : Bool) (lines : List Str) (env : Env)
    (k v : Str) (h : envLookup env k = some v) :
    envLookup (loadDotenv b lines env) k = some v := by
  unfold loadDotenv
  cases b with
  | false => simpa using h
  | true => simpa using loadEnvLines_preserves h

theorem c1_witness :
    envLookup [("K".toList, "old".toList)] "K".toList = some "old".toList
    ∧ envLookup (loadDotenv true ["K=new".toList] [("K".toList, "old".toList)])
        "K".toList = some "old".toList :=
  ⟨by decide, c1_loader_never_overwrites true _ _ _ _ (by decide)⟩

/-- Claim C10: when the file defines the same key on more than one valid
line, the first occurrence wins: for a key not already in the environment,
the loaded value is the parsed value of the earliest valid line defining it
(`firstDefSpec`), later lines being ignored by `setdefault`. -/
theorem c10_first_occurrence_wins (lines : List Str) (env : Env) (k : Str)
    (h : envLookup env k = none) :
    envLookup (loadDotenv true lines env) k = firstDefSpec lines k := by
  simpa [loadDotenv] using loadEnvLines_firstDef h

theorem c10_witness :
    envLookup [] "A".toList = none
    ∧ envLookup (loadDotenv true ["A=1".toList, "A=2".toList] []) "A".toList
        = some "1".toList
    ∧ firstDefSpec ["A=1".toList, "A=2".toList] "A".toList = some "1".toList :=
  ⟨by decide, (c10_first_occurrence_wins _ _ _ (by decide)).trans (by decide), by decide⟩

/-! ## Line-parsing lemmas -/

theorem splitFirstEq_eq_none {l : Str} (h : '=' ∉ l) : splitFirstEq l = none := by
  induction l with
  | nil => rfl
  | cons c rest ih =>
    simp only [List.mem_cons, not_or] at h
    simp only [splitFirstEq]
    rw [if_neg fun hc => h.1 hc.symm, ih h.2]

theorem parseLine_eq_none_of_blank {raw : Str} (h : strip raw = []) :
    parseLine raw = none := by
  simp [parseLine, h]

theorem parseLine_eq_none_of_comment {raw : Str}
    (h : (strip raw).head? = some '#') : parseLine raw = none := by
  unfold parseLine
  by_cases h1 : (strip raw).isEmpty
  · simp [h1]
  · simp [h1, h]

theorem parseLine_eq_none_of_no_eq {raw : Str} (h : '=' ∉ strip raw) :
    parseLine raw = none := by
  unfold parseLine
  by_cases h1 : (strip raw).isEmpty
  · simp [h1]
  · by_cases h2 : (strip raw).head? = some '#'
    · simp [h1, h2]
    · simp [h1, h2, splitFirstEq_eq_none h]

theorem parseLine_eq_none_of_empty_key {raw k v : Str}
    (hs : splitFirstEq (strip raw) = some (k, v)) (hk : strip k = []) :
    parseLine raw = none := by
  unfold parseLine
  by_cases h1 : (strip raw).isEmpty
  · simp [h1]
  · by_cases h2 : (strip raw).head? = some '#'
    · simp [h1, h2]
    · simp [h1, h2, hs, hk]

theorem parseLine_some_shape {raw k val : Str} (h : parseLine raw = some (k, val)) :
    ∃ k0 v0, splitFirstEq (strip raw) = some (k0, v0)
      ∧ k = strip k0 ∧ val = stripQuotes (strip v0) := by
  unfold parseLine at h
  by_cases h1 : (strip raw).isEmpty
  · simp [h1] at h
  · by_cases h2 : (strip raw).head? = some '#'
    · simp [h1, h2] at h
    · rcases hs : splitFirstEq (strip raw) with _ | ⟨k0, v0⟩
      · simp [h1, h2, hs] at h
      · by_cases h3 : (strip k0).isEmpty
        · simp [h1, h2, hs, h3] at h
        · simp only [h1, h2, hs, h3, if_neg, if_false] at h
          refine ⟨k0, v0, rfl, ?_, ?_⟩
          · simp [h1, h2, h3] at h
            exact h.1.symm
          · simp [h1, h2, h3] at h
            exact h.2.symm

/-! ## Parsing claims -/

/-- Claim C7: the loader's total, silent behaviour — a missing (or
non-regular) file leaves the environment unchanged, a skipped line changes
nothing, and a line is skipped when it is blank after stripping, when its
first non-whitespace character is `#`, when it contains no `=`, or when its
key is empty after stripping.  All modelling functions are total, embedding
"never raises". -/
theorem c7_loader_never_raises :
    (∀ lines env, loadDotenv false lines env = env)
    ∧ (∀ env raw rest, parseLine raw = none
        → loadEnvLines env (raw :: rest) = loadEnvLines env rest)
    ∧ (∀ raw, strip raw = [] → parseLine raw = none)
    ∧ (∀ raw, (strip raw).head? = some '#' → parseLine raw = none)
    ∧ (∀ raw, '=' ∉ strip raw → parseLine raw = none)
    ∧ (∀ raw k v, splitFirstEq (strip raw) = some (k, v) → strip k = []
        → parseLine raw = none) := by
  refine ⟨fun lines env => rfl, fun env raw rest h => ?_,
    fun raw h => parseLine_eq_none_of_blank h,
    fun raw h => parseLine_eq_none_of_comment h,
    fun raw h => parseLine_eq_none_of_no_eq h,
    fun raw k v hs hk => parseLine_eq_none_of_empty_key hs hk⟩
  simp [loadEnvLines, h]

theorem c7_witness :
    loadDotenv false ["A=1".toList] [] = []
    ∧ parseLine "   ".toList = none
    ∧ parseLine "# A=1".toList = none
    ∧ parseLine "no equals".toList = none
    ∧ parseLine "  =value".toList = none
    ∧ loadEnvLines [] ["# A=1".toList] = loadEnvLines [] [] :=
  ⟨c7_loader_never_raises.1 _ _,
   c7_loader_never_raises.2.2.1 _ (by decide),
   c7_loader_never_raises.2.2.2.1 _ (by decide),
   c7_loader_never_raises.2.2.2.2.1 _ (by decide),
   c7_loader_never_raises.2.2.2.2.2 _ "".toList "value".toList (by decide) (by decide),
   c7_loader_never_raises.2.1 _ _ _ (by decide)⟩

/-- Claim C6: a stripped value of length at least two whose first and last
characters are the same quote character (`"` or `'`) loses exactly that one
outer pair (`val[1:-1]`, no recursive unquoting), any other value is kept
verbatim, every parsed line's value goes through exactly this one
quote-stripping pass after whitespace stripping, and
`KEY="value with spaces"` parses to `KEY` ↦ `value with spaces`. -/
theorem c6_quote_stripping (v : Str) :
    (2 ≤ v.length → v.head? = v.getLast?
      → (v.head? = some '"' ∨ v.head? = some '\'')
      → stripQuotes v = (v.drop 1).dropLast)
    ∧ (¬ (2 ≤ v.length ∧ v.head? = v.getLast?
        ∧ (v.head? = some '"' ∨ v.head? = some '\'')) → stripQuotes v = v)
    ∧ (∀ raw k val, parseLine raw = some (k, val)
        → ∃ k0 v0, splitFirstEq (strip raw) = some (k0, v0)
            ∧ k = strip k0 ∧ val = stripQuotes (strip v0))
    ∧ parseLine "KEY=\"value with spaces\"".toList
        = some ("KEY".toList, "value with spaces".toList) := by
  refine ⟨fun h1 h2 h3 => ?_, fun h => ?_,
    fun raw k val h => parseLine_some_shape h, by decide⟩
  · unfold stripQuotes
    rw [if_pos ⟨h1, h2, h3⟩]
  · unfold stripQuotes
    rw [if_neg h]

theorem c6_witness :
    stripQuotes ('"' :: 'a' :: ' ' :: 'b' :: '"' :: []) = ('a' :: ' ' :: 'b' :: [])
    ∧ stripQuotes ('a' :: 'b' :: []) = ('a' :: 'b' :: [])
    ∧ stripQuotes ('\'' :: '\'' :: 'x' :: '\'' :: '\'' :: [])
        = ('\'' :: 'x' :: '\'' :: []) := by
  refine ⟨?_, ?_, ?_⟩
  · exact ((c6_quote_stripping _).1 (by decide) (by decide) (by decide)).trans (by decide)
  · exact (c6_quote_stripping _).2.1 (by decide)
  · exact ((c6_quote_stripping _).1 (by decide) (by decide) (by decide)).trans (by decide)

/-! ## Supervisor lemmas -/

theorem aggLoop_eq (l : List Int) :
    ∀ acc, aggLoop acc l = if acc = 0 then firstNonzeroSpec l else acc := by
  induction l with
  | nil =>
    intro acc
    by_cases h : acc = 0 <;> simp [aggLoop, firstNonzeroSpec, h]
  | cons rc rest ih =>
    intro acc
    by_cases hacc : acc = 0
    · subst hacc
      by_cases hrc : rc = 0
      · subst hrc
        simp [aggLoop, ih, firstNonzeroSpec, List.find?_cons_of_neg]
      · rw [show aggLoop 0 (rc :: rest)
              = aggLoop (if rc ≠ 0 ∧ (0 : Int) = 0 then rc else 0) rest from rfl,
          if_pos (⟨hrc, rfl⟩ : rc ≠ 0 ∧ (0 : Int) = 0), ih rc, if_neg hrc, if_pos rfl,
          firstNonzeroSpec, List.find?_cons_of_pos _ (by simpa using hrc)]
        rfl
    · have : ¬ (rc ≠ 0 ∧ acc = 0) := fun hc => hacc hc.2
      simp [aggLoop, this, ih, hacc]

theorem spawnPhase_all_exist {w : World} {l : List Child}
    (h : ∀ c ∈ l, scriptExists w c = true) : spawnPhase w l = (l, none) := by
  induction l with
  | nil => rfl
  | cons c rest ih =>
    have hc := h c (List.mem_cons_self c rest)
    simp [spawnPhase, hc, ih fun c2 hc2 => h c2 (List.mem_cons_of_mem c hc2)]

theorem spawnPhase_eq (w : World) (l : List Child) :
    spawnPhase w l
      = (l.takeWhile (fun c => scriptExists w c),
         l.find? (fun c => !scriptExists w c)) := by
  induction l with
  | nil => rfl
  | cons c rest ih =>
    by_cases h : scriptExists w c = true
    · rw [List.takeWhile_cons, List.find?_cons]
      simp [spawnPhase, h, ih]
    · rw [List.takeWhile_cons, List.find?_cons]
      simp only [Bool.not_eq_true] at h
      simp [spawnPhase, h]

theorem waitPhase_no_intr (w : World) (procs : List Child) :
    ∀ i acc, (∀ j, w.interruptAt = some j → j < i ∨ i + procs.length ≤ j) →
      waitPhase w i acc procs = (procs, aggLoop acc (procs.map w.exitCode), false) := by
  induction procs with
  | nil => intro i acc _; simp [waitPhase, aggLoop]
  | cons c rest ih =>
    intro i acc h
    have hne : ¬ w.interruptAt = some i := by
      intro hi
      rcases h i hi with h1 | h2
      · omega
      · simp only [List.length_cons] at h2; omega
    have hrec := ih (i + 1) (if w.exitCode c ≠ 0 ∧ acc = 0 then w.exitCode c else acc)
      (fun j hj => by
        rcases h j hj with h1 | h2
        · exact Or.inl (by omega)
        · simp only [List.length_cons] at h2
          exact Or.inr (by omega))
    simp only [waitPhase, if_neg hne, hrec, List.map_cons, aggLoop]

theorem waitPhase_intr (w : World) (procs : List Child) :
    ∀ i acc j, w.interruptAt = some j → i ≤ j → j < i + procs.length →
      (waitPhase w i acc procs).2.2 = true := by
  induction procs with
  | nil =>
    intro i acc j _ _ h3
    simp only [List.length_nil] at h3
    omega
  | cons c rest ih =>
    intro i acc j h1 h2 h3
    by_cases hij : j = i
    · subst hij
      simp [waitPhase, h1]
    · have hne : ¬ w.interruptAt = some i := by
        rw [h1]
        intro hc
        exact hij (Option.some.inj hc)
      have hrec := ih (i + 1) (if w.exitCode c ≠ 0 ∧ acc = 0 then w.exitCode c else acc)
        j h1 (by omega) (by simp only [List.length_cons] at h3; omega)
      rcases hw : waitPhase w (i + 1)
          (if w.exitCode c ≠ 0 ∧ acc = 0 then w.exitCode c else acc) rest
        with ⟨ws, a, intr⟩
      rw [hw] at hrec
      simp only [waitPhase, if_neg hne, hw]
      exact hrec

theorem mainRun_normal (w : World) (args : Args)
    (hreq : args.twitch = true ∨ args.wikimedia = true)
    (hex : ∀ c ∈ requestedChildren args, scriptExists w c = true)
    (hint : ∀ j, w.interruptAt = some j → (requestedChildren args).length ≤ j) :
    mainRun w args =
      { outcome := Outcome.exited
          (firstNonzeroSpec ((requestedChildren args).map w.exitCode))
        printedHelpToStderr := false
        spawned := requestedChildren args
        waitedNormally := requestedChildren args
        drainTerm := [], drainWait := [] } := by
  have hcond : ¬ (args.twitch = false ∧ args.wikimedia = false) := by
    rcases hreq with h | h <;> simp [h]
  have hsp := spawnPhase_all_exist hex
  have hw := waitPhase_no_intr w (requestedChildren args) 0 0
    (fun j hj => Or.inr (by simpa using hint j hj))
  simp only [mainRun, if_neg hcond, hsp, hw, aggLoop_eq]
  simp

/-! ## Supervisor claims -/

/-- Claim C3: for every set of requested children and every assignment of
exit codes, when no script is missing and no interrupt arrives, `main`
returns 0 if all children exit 0 and otherwise the first non-zero exit code
in wait order (later non-zero codes ignored), and every spawned child is
waited on to completion before it returns. -/
theorem c3_first_failure_wins (w : World) (args : Args)
    (hreq : args.twitch = true ∨ args.wikimedia = true)
    (hex : ∀ c ∈ requestedChildren args, scriptExists w c = true)
    (hint : ∀ j, w.interruptAt = some j → (requestedChildren args).length ≤ j) :
    mainRun w args =
      { outcome := Outcome.exited
          (firstNonzeroSpec ((requestedChildren args).map w.exitCode))
        printedHelpToStderr := false
        spawned := requestedChildren args
        waitedNormally := requestedChildren args
        drainTerm := [], drainWait := [] } :=
  mainRun_normal w args hreq hex hint

theorem c3_witness :
    mainRun sampleWorld { twitch := true, wikimedia := true } =
      { outcome := Outcome.exited 5, printedHelpToStderr := false
        spawned := [Child.twitch, Child.wikimedia]
        waitedNormally := [Child.twitch, Child.wikimedia]
        drainTerm := [], drainWait := [] } :=
  (c3_first_failure_wins sampleWorld { twitch := true, wikimedia := true }
    (Or.inl rfl) (by decide)
    (by intro j hj; simp [sampleWorld] at hj)).trans (by decide)

/-- Claim C2: an interrupt delivered during any of the blocking waits makes
`main` invoke `_terminate` on every spawned child, run the grace-wait /
force-kill step for every spawned child, and return exit code 130 whatever
exit codes and partial aggregate had been observed; each drained child
either had its grace wait succeed or had a forced kill attempted. -/
theorem c2_interrupt_drains_all (w : World) (args : Args) (i : Nat)
    (hreq : args.twitch = true ∨ args.wikimedia = true)
    (hex : ∀ c ∈ requestedChildren args, scriptExists w c = true)
    (hintr : w.interruptAt = some i)
    (hlt : i < (requestedChildren args).length) :
    (mainRun w args).outcome = Outcome.exited 130
    ∧ (mainRun w args).drainTerm
        = (requestedChildren args).map (fun c => (c, terminateProc w.nt (w.oracle c)))
    ∧ (mainRun w args).drainWait
        = (requestedChildren args).map (fun c => drainChildWait w.nt (w.oracle c) c)
    ∧ ∀ d ∈ (mainRun w args).drainWait,
        d.gracefulOk = true ∨ (d.killCall).isSome = true := by
  have hcond : ¬ (args.twitch = false ∧ args.wikimedia = false) := by
    rcases hreq with h | h <;> simp [h]
  have hsp := spawnPhase_all_exist hex
  rcases hwp : waitPhase w 0 0 (requestedChildren args) with ⟨waited, agg, intr⟩
  have hintr2 : intr = true := by
    have h2 := waitPhase_intr w (requestedChildren args) 0 0 i hintr
      (Nat.zero_le i) (by simpa using hlt)
    rw [hwp] at h2
    exact h2
  subst hintr2
  simp only [mainRun, if_neg hcond, hsp, hwp]
  refine ⟨trivial, trivial, trivial, ?_⟩
  intro d hd
  simp only [List.mem_map] at hd
  obtain ⟨c, _, rfl⟩ := hd
  unfold drainChildWait
  by_cases h : (w.oracle c).waitGraceOk = true <;> simp [h]

theorem c2_witness :
    (mainRun intrWorld { twitch := true, wikimedia := true }).outcome
        = Outcome.exited 130
    ∧ (mainRun intrWorld { twitch := true, wikimedia := true }).drainTerm
        = [(Child.twitch, [OsCall.killpgTerm]), (Child.wikimedia, [OsCall.killpgTerm])] :=
  ⟨(c2_interrupt_drains_all intrWorld { twitch := true, wikimedia := true } 0
      (Or.inl rfl) (by decide) rfl (by decide)).1,
   ((c2_interrupt_drains_all intrWorld { twitch := true, wikimedia := true } 0
      (Or.inl rfl) (by decide) rfl (by decide)).2.1).trans (by decide)⟩

/-- Claim C4: when a requested child's script file is missing, `main`
raises the `FileNotFoundError` out of `_spawn` uncaught: the run ends with
that error before any wait, the children spawned before the missing one are
left running (spawned but never waited on), and no termination or cleanup is
attempted. -/
theorem c4_missing_script_fatal (w : World) (args : Args) (c : Child)
    (hreq : args.twitch = true ∨ args.wikimedia = true)
    (hmiss : (requestedChildren args).find? (fun c => !scriptExists w c) = some c) :
    mainRun w args =
      { outcome := Outcome.raisedNotFound c, printedHelpToStderr := false
        spawned := (requestedChildren args).takeWhile (fun c => scriptExists w c)
        waitedNormally := [], drainTerm := [], drainWait := [] } := by
  have hcond : ¬ (args.twitch = false ∧ args.wikimedia = false) := by
    rcases hreq with h | h <;> simp [h]
  simp only [mainRun, if_neg hcond, spawnPhase_eq, hmiss]

theorem c4_witness :
    mainRun { sampleWorld with ircExists := false } { twitch := true, wikimedia := true } =
      { outcome := Outcome.raisedNotFound Child.wikimedia, printedHelpToStderr := false
        spawned := [Child.twitch], waitedNormally := []
        drainTerm := [], drainWait := [] } :=
  (c4_missing_script_fatal { sampleWorld with ircExists := false }
    { twitch := true, wikimedia := true } Child.wikimedia
    (Or.inl rfl) (by decide)).trans (by decide)

/-- Claim C5: when neither child flag is given, `main` prints the help text
to `sys.stderr`, returns exit code 2, and spawns no child. -/
theorem c5_no_children_usage_error (w : World) (args : Args)
    (ht : args.twitch = false) (hw : args.wikimedia = false) :
    mainRun w args =
      { outcome := Outcome.exited 2, printedHelpToStderr := true
        spawned := [], waitedNormally := [], drainTerm := [], drainWait := [] } := by
  simp [mainRun, ht, hw]

theorem c5_witness :
    mainRun sampleWorld { twitch := false, wikimedia := false } =
      { outcome := Outcome.exited 2, printedHelpToStderr := true
        spawned := [], waitedNormally := [], drainTerm := [], drainWait := [] } :=
  c5_no_children_usage_error sampleWorld { twitch := false, wikimedia := false } rfl rfl

/-- Claim C8: the shutdown path is best-effort and total for every outcome
of the underlying OS calls: a still-running child always gets a termination
attempt (with the fallback `terminate` after a failed `killpg`), an
already-exited child is skipped, the grace wait (`timeout=5`) is followed by
a forced kill exactly when it fails, and every failure flag of the oracle is
swallowed (the functions return on all oracles). -/
theorem c8_termination_best_effort (nt : Bool) (o : ChildOracle) (c : Child) :
    (o.pollExited = false → terminateProc nt o ≠ [])
    ∧ (o.pollExited = true → terminateProc nt o = [])
    ∧ (o.pollExited = false → nt = false → o.sigTermFails = false
        → terminateProc nt o = [OsCall.killpgTerm])
    ∧ (o.pollExited = false → nt = false → o.sigTermFails = true
        → terminateProc nt o = [OsCall.killpgTerm, OsCall.procTerminate])
    ∧ ((drainChildWait nt o c).gracefulOk = true
        ∨ ((drainChildWait nt o c).killCall).isSome = true)
    ∧ (o.waitGraceOk = true → drainChildWait nt o c
        = { child := c, gracefulOk := true, killCall := none })
    ∧ (o.waitGraceOk = false → drainChildWait nt o c
        = { child := c, gracefulOk := false
            killCall := some (if nt then OsCall.procKill else OsCall.killpgKill) })
    ∧ gracePeriodSeconds = 5 := by
  obtain ⟨pe, stf, ftf, wgo, kf⟩ := o
  cases pe <;> cases stf <;> cases wgo <;> cases nt <;>
    simp [terminateProc, drainChildWait, gracePeriodSeconds]

theorem c8_witness :
    terminateProc false
        { pollExited := false, sigTermFails := true, fallbackTermFails := true
          waitGraceOk := false, killFails := true }
      = [OsCall.killpgTerm, OsCall.procTerminate]
    ∧ drainChildWait false
        { pollExited := false, sigTermFails := true, fallbackTermFails := true
          waitGraceOk := false, killFails := true } Child.twitch
      = { child := Child.twitch, gracefulOk := false
          killCall := some OsCall.killpgKill } :=
  ⟨(c8_termination_best_effort false _ Child.twitch).2.2.2.1 rfl rfl rfl,
   ((c8_termination_best_effort false _ Child.twitch).2.2.2.2.2.2.1 rfl).trans (by decide)⟩

/-- Claim C9 counterexample: on the command line `--Wikimedia --Twitch` the
children are requested in the order Wikimedia, Twitch, but `main` waits in
the order Twitch, Wikimedia — the wait order does NOT match the command-line
request order for every flag ordering. -/
theorem c9_counterexample :
    parseFlags ["--Wikimedia", "--Twitch"] = some { twitch := true, wikimedia := true }
    ∧ requestOrderSpec ["--Wikimedia", "--Twitch"] = [Child.wikimedia, Child.twitch]
    ∧ (mainRun sampleWorld { twitch := true, wikimedia := true }).waitedNormally
        = [Child.twitch, Child.wikimedia]
    ∧ (mainRun sampleWorld { twitch := true, wikimedia := true }).waitedNormally
        ≠ requestOrderSpec ["--Wikimedia", "--Twitch"] := by
  refine ⟨by decide, by decide, by decide, by decide⟩

/-- Claim C9 (amended): when two children are requested, the supervisor
blocks on each spawned child sequentially in the fixed spawn order —
`twitch.py` first, then `avicbotirc.py` — for every ordering of the flags on
the command line (wait order equals spawn order, not flag order). -/
theorem c9_wait_order_is_spawn_order (argv : List String) (w : World) (args : Args)
    (_hp : parseFlags argv = some args)
    (ht : args.twitch = true) (hw : args.wikimedia = true)
    (hex : ∀ c ∈ requestedChildren args, scriptExists w c = true)
    (hint : ∀ j, w.interruptAt = some j → (requestedChildren args).length ≤ j) :
    (mainRun w args).spawned = [Child.twitch, Child.wikimedia]
    ∧ (mainRun w args).waitedNormally = [Child.twitch, Child.wikimedia] := by
  rw [mainRun_normal w args (Or.inl ht) hex hint]
  simp [requestedChildren, ht, hw]

theorem c9_witness :
    (mainRun sampleWorld { twitch := true, wikimedia := true }).spawned
        = [Child.twitch, Child.wikimedia]
    ∧ (mainRun sampleWorld { twitch := true, wikimedia := true }).waitedNormally
        = [Child.twitch, Child.wikimedia] :=
  c9_wait_order_is_spawn_order ["--Wikimedia", "--Twitch"] sampleWorld
    { twitch := true, wikimedia := true } (by decide) rfl rfl (by decide)
    (by intro j hj; simp [sampleWorld] at hj)

end AvicBot
